import Mathlib

/-
Verification development for the BetaView motion-analysis engine
(src/backend/heuristics.py, src/backend/processor.py).

The Python code is shallowly embedded in Lean 4:
* Python floats are idealised as rationals (ℚ).  `math.sqrt` / `np.sqrt`
  is embedded by `ratSqrt`, a computable integer-square-root based
  approximation that is exact on perfect squares and non-negative
  everywhere (the only properties the claims depend on).
* `math.log(p, 2)` is embedded by `log2Q`, a computable floor-log2
  approximation; the claims touching entropy depend only on
  `2 ^ k ≤ n` for `k = natLog2F fuel n`, which holds for every fuel.
* Python exceptions (IndexError from reading past the end of a list,
  ZeroDivisionError from float division by zero) are modelled by
  `Option`: `none` means the Python computation raises.
* Python dicts keyed by strings are modelled as association lists.
-/

set_option maxRecDepth 4000

namespace BetaView

/-- Fuel-bounded integer square root (exact for `n < 4 ^ fuel`),
structurally recursive so that the kernel can evaluate it. -/
def isqrtF : ℕ → ℕ → ℕ
  | 0, _ => 0
  | f + 1, n =>
    if n = 0 then 0
    else
      let r := 2 * isqrtF f (n / 4)
      if (r + 1) * (r + 1) ≤ n then r + 1 else r

/-- Fuel-bounded floor of log base 2 (exact for `1 ≤ n < 2 ^ fuel`),
structurally recursive so that the kernel can evaluate it. -/
def natLog2F : ℕ → ℕ → ℕ
  | 0, _ => 0
  | f + 1, n => if n ≤ 1 then 0 else natLog2F f (n / 2) + 1

/-- Embedding of `np.sqrt` on rationals: square root of numerator and
denominator separately; exact whenever both are perfect squares. -/
def ratSqrt (q : ℚ) : ℚ := (isqrtF 64 q.num.toNat : ℚ) / (isqrtF 64 q.den : ℚ)

/-- Embedding of `math.log(q, 2)`: floor-log2 approximation, exact on
(inverses of) powers of two; satisfies `(log2Q q : ℝ) ≥ Real.logb 2 q`
on `(0,1]`, the only property the entropy bound needs. -/
def log2Q (q : ℚ) : ℚ :=
  if 1 ≤ q then (natLog2F 64 ⌊q⌋₊ : ℚ) else -(natLog2F 64 ⌊q⁻¹⌋₊ : ℚ)

/-- `np.mean` of a list (population mean). -/
def meanQ (l : List ℚ) : ℚ := l.sum / (l.length : ℚ)

/-- `np.std` of a list (population standard deviation). -/
def stdQ (l : List ℚ) : ℚ :=
  ratSqrt ((l.map (fun x => (x - meanQ l) * (x - meanQ l))).sum / (l.length : ℚ))

/-- A 2-d image-space point `(x, y)`. -/
abbrev Point := ℚ × ℚ

/-- `euclidean_distance` from heuristics.py. -/
def euclidean_distance (p1 p2 : Point) : ℚ :=
  ratSqrt ((p1.1 - p2.1) * (p1.1 - p2.1) + (p1.2 - p2.2) * (p1.2 - p2.2))

/-- Sum of consecutive-point distances along a trajectory
(the `total_distance` sum in `calculate_path_efficiency`). -/
def totalDist (traj : List Point) : ℚ :=
  ((traj.zip traj.tail).map (fun pq => euclidean_distance pq.1 pq.2)).sum

/-- `calculate_path_efficiency` from heuristics.py:
returns `(path_efficiency, total_distance, direct_distance)`. -/
def calculate_path_efficiency (hip_trajectory : List Point) : ℚ × ℚ × ℚ :=
  if hip_trajectory.length < 2 then (1, 0, 0)
  else
    let total_distance := totalDist hip_trajectory
    let direct_distance :=
      euclidean_distance (hip_trajectory.headD (0, 0)) (hip_trajectory.getLastD (0, 0))
    if total_distance < 1 / 1000000 then (1, 0, 0)
    else (min (direct_distance / total_distance) 1, total_distance, direct_distance)

/-- `calculate_velocities` from heuristics.py.  The Python loop reads
`timestamps[i]` and `timestamps[i+1]` for `i < len(trajectory) - 1`;
when the trajectory is longer than the timestamp list this raises
IndexError, modelled by `none`. -/
def calculate_velocities (trajectory : List Point) (timestamps : List ℚ) :
    Option (List ℚ) :=
  if trajectory.length < 2 then some []
  else if timestamps.length < trajectory.length then none
  else
    some ((List.range (trajectory.length - 1)).map (fun i =>
      let dt := timestamps.getD (i + 1) 0 - timestamps.getD i 0
      if 0 < dt then
        euclidean_distance (trajectory.getD i (0, 0)) (trajectory.getD (i + 1) (0, 0)) / dt
      else 0))

/-- The `Phase` enum. -/
inductive Phase where
  | static
  | moving
deriving DecidableEq, Repr

/-- The `MovementPhase` dataclass. -/
structure MovementPhase where
  phase_type : Phase
  start_frame : ℕ
  end_frame : ℕ
  duration_seconds : ℚ
deriving DecidableEq, Repr

/-- `classify_movement_phases` from heuristics.py.  Out-of-range
timestamp reads (possible when the velocity list is longer than the
timestamp list) are modelled by `none`; `timestamps[-1]` on a
non-empty list is its last element. -/
def classify_movement_phases (velocities timestamps : List ℚ)
    (static_threshold : ℚ) : Option (List MovementPhase) :=
  if velocities.isEmpty then some []
  else
    let cur0 : Phase := if velocities.headD 0 < static_threshold then .static else .moving
    do
      let st ← velocities.enum.foldlM
        (fun (st : List MovementPhase × Phase × ℕ) (iv : ℕ × ℚ) => do
          let np : Phase := if iv.2 < static_threshold then .static else .moving
          if np ≠ st.2.1 then
            let dur ← if timestamps.isEmpty then some (0 : ℚ)
              else do
                let a ← timestamps.get? iv.1
                let b ← timestamps.get? st.2.2
                pure (a - b)
            pure (st.1 ++ [⟨st.2.1, st.2.2, iv.1 - 1, dur⟩], np, iv.1)
          else pure st)
        ([], cur0, 0)
      if st.2.2 < velocities.length then
        let dur ← if timestamps.isEmpty then some (0 : ℚ)
          else do
            let b ← timestamps.get? st.2.2
            pure (timestamps.getLastD 0 - b)
        pure (st.1 ++ [⟨st.2.1, st.2.2, velocities.length - 1, dur⟩])
      else pure st.1

/-- `analyze_rhythm` from heuristics.py:
returns `(move_count, avg_pause, rhythm_variance)`. -/
def analyze_rhythm (phases : List MovementPhase) : ℤ × ℚ × ℚ :=
  let moving_phases := phases.filter (fun p => p.phase_type = Phase.moving)
  let static_phases := phases.filter (fun p => p.phase_type = Phase.static)
  let pause_durations := static_phases.map (fun p => p.duration_seconds)
  if static_phases.isEmpty then ((moving_phases.length : ℤ), 0, 0)
  else ((moving_phases.length : ℤ), meanQ pause_durations, stdQ pause_durations)

/-- The `SettleEvent` dataclass. -/
structure SettleEvent where
  frame : ℕ
  limb : String
  jitter_score : ℚ
  position : Point
deriving DecidableEq, Repr

/-- The settle-entry condition of the scan in `detect_settle_events`:
`velocities[i] < settle_velocity_threshold` and
`all(v < settle_velocity_threshold * 1.5 for v in velocities[i : i + min_settle_frames])`.
In the source these are two nested `if`s, but both failure branches fall
through to the same `i += 1`, so they are combined here. -/
def settleEntryB (θ : ℚ) (m : ℕ) (v : List ℚ) (i : ℕ) : Bool :=
  decide (v.getD i 0 < θ) && ((v.drop i).take m).all (fun w => decide (w < θ * (3 / 2)))

/-- The jitter computed for a settle at index `i`: sum of the standard
deviations of the x and y coordinates of the
`trajectory[i + m : i + m + min(15, len(trajectory) - i - m)]` slice,
0 when that slice has at most one element. -/
def settleJitter (trajectory : List Point) (m i : ℕ) : ℚ :=
  let post_positions :=
    (trajectory.drop (i + m)).take (min 15 ((trajectory.length : ℤ) - i - m)).toNat
  if 1 < post_positions.length then
    stdQ (post_positions.map Prod.fst) + stdQ (post_positions.map Prod.snd)
  else 0

/-- The `while i < len(velocities) - min_settle_frames` scan of
`detect_settle_events`, with an explicit structural fuel so the kernel
can evaluate it; `detect_settle_events` supplies fuel `len(velocities)`,
which bounds the number of loop iterations from index 0. -/
def settleScanF (θ : ℚ) (m : ℕ) (limb : String) (trajectory : List Point)
    (velocities : List ℚ) : ℕ → ℕ → List SettleEvent
  | 0, _ => []
  | f + 1, i =>
    if i + m < velocities.length then
      if settleEntryB θ m velocities i then
        if 0 < min 15 ((trajectory.length : ℤ) - i - m) then
          ⟨i, limb, settleJitter trajectory m i, trajectory.getD i (0, 0)⟩ ::
            settleScanF θ m limb trajectory velocities f (i + (m + 10))
        else settleScanF θ m limb trajectory velocities f (i + (m + 10))
      else settleScanF θ m limb trajectory velocities f (i + 1)
    else []

/-- The per-limb part of `detect_settle_events`: limbs whose trajectory
is shorter than `min_settle_frames + 10` are skipped; otherwise
`calculate_velocities` runs (and may raise, see there) and the scan
starts at index 0. -/
def limbSettleEvents (limb : String) (trajectory : List Point)
    (timestamps : List ℚ) (θ : ℚ) (m : ℕ) : Option (List SettleEvent) :=
  if trajectory.length < m + 10 then some []
  else do
    let v ← calculate_velocities trajectory timestamps
    pure (settleScanF θ m limb trajectory v v.length 0)

/-- `detect_settle_events` from heuristics.py.  The
`ankle_trajectories` dict is passed as its two entries in insertion
order (`left_ankle`, then `right_ankle`). -/
def detect_settle_events (left_ankle right_ankle : List Point)
    (timestamps : List ℚ) (θ : ℚ) (m : ℕ) : Option (List SettleEvent) := do
  let e1 ← limbSettleEvents "left_ankle" left_ankle timestamps θ m
  let e2 ← limbSettleEvents "right_ankle" right_ankle timestamps θ m
  pure (e1 ++ e2)

/-- `calculate_stability_score` from heuristics.py:
returns `(avg_jitter, clean_placements, total_placements)`. -/
def calculate_stability_score (settle_events : List SettleEvent)
    (jitter_threshold : ℚ) : ℚ × ℤ × ℤ :=
  if settle_events.isEmpty then (0, 0, 0)
  else
    let jitter_scores := settle_events.map (fun e => e.jitter_score)
    (meanQ jitter_scores,
     ((jitter_scores.filter (fun j => decide (j < jitter_threshold))).length : ℤ),
     (settle_events.length : ℤ))

/-- Python's `max` over a non-empty list. -/
def maxList : List ℚ → ℚ
  | [] => 0
  | x :: xs => xs.foldl max x

/-- The sag-event counter of `calculate_body_tension`: upward crossings
`alignments[i] > thr ∧ alignments[i-1] ≤ thr` for `1 ≤ i < len`. -/
def countUpCrossings (a : List ℚ) (thr : ℚ) : ℕ :=
  ((a.zip a.tail).filter (fun p => decide (thr < p.2) && decide (p.1 ≤ thr))).length

/-- The per-frame absolute horizontal shoulder/hip offsets of
`calculate_body_tension`. -/
def tensionAlignments (shoulder_positions hip_positions : List Point) : List ℚ :=
  (shoulder_positions.zip hip_positions).map (fun sh => |sh.1.1 - sh.2.1|)

/-- The `frame_width_estimate` of `calculate_body_tension`: the
maximum observed x-coordinate, with the source's 640 fallback for an
empty coordinate list (unreachable under the length guard). -/
def tensionMaxX (shoulder_positions hip_positions : List Point) : ℚ :=
  if (shoulder_positions.map Prod.fst ++ hip_positions.map Prod.fst).isEmpty then 640
  else maxList (shoulder_positions.map Prod.fst ++ hip_positions.map Prod.fst)

/-- `calculate_body_tension` from heuristics.py (local variables
inlined).  When `max_expected_offset = frame_width_estimate * 0.15` is
zero the Python float division `avg_offset / max_expected_offset`
raises ZeroDivisionError, modelled by `none`. -/
def calculate_body_tension (shoulder_positions hip_positions : List Point) :
    Option (ℚ × ℤ) :=
  if shoulder_positions.length ≠ hip_positions.length ∨ shoulder_positions.length < 10 then
    some (1, 0)
  else if tensionMaxX shoulder_positions hip_positions * (15 / 100) = 0 then none
  else
    some (max 0 (1 - meanQ (tensionAlignments shoulder_positions hip_positions) /
        (tensionMaxX shoulder_positions hip_positions * (15 / 100))),
      (countUpCrossings (tensionAlignments shoulder_positions hip_positions)
        (meanQ (tensionAlignments shoulder_positions hip_positions) +
          stdQ (tensionAlignments shoulder_positions hip_positions)) : ℤ))

/-- Per-frame keypoints: the Python dict `name -> (x, y, visibility)`,
modelled as an association list. -/
abbrev Keypoints := List (String × (ℚ × ℚ × ℚ))

/-- `_extract_point` from heuristics.py: `None` when the name is
missing or the visibility is strictly below the threshold (so a
visibility equal to the threshold is kept). -/
def _extract_point (keypoints : Keypoints) (name : String) (vis_threshold : ℚ) :
    Option Point :=
  match keypoints.lookup name with
  | none => none
  | some (x, y, v) => if v < vis_threshold then none else some (x, y)

/-- The angular bin of a non-zero displacement `(dx, dy)`: the exact
evaluation of `min(bins - 1, int((atan2(dy, dx) + π) / (2π) * bins))`
for the default `bins = 8` (the aggregator always uses the default).
`atan2` ranges over `(-π, π]`; the bin boundaries are the multiples of
π/4, so membership is decided by sign and diagonal comparisons. -/
def binIdx (dx dy : ℚ) : ℕ :=
  if dy < 0 then
    if dx < 0 then (if dx < dy then 0 else 1)
    else if dx < -dy then 2 else 3
  else if dy = 0 then
    if 0 < dx then 4 else 7
  else
    if 0 < dx then (if dy < dx then 4 else 5)
    else if dx = 0 then 6
    else if -dx < dy then 6 else 7

/-- The displacement list of `calculate_trajectory_entropy`: consecutive
hip displacements, skipping those with `|dx| < 1e-6 and |dy| < 1e-6`. -/
def hipDisplacements (hip : List Point) : List (ℚ × ℚ) :=
  ((hip.zip hip.tail).map (fun pq => (pq.2.1 - pq.1.1, pq.2.2 - pq.1.2))).filter
    (fun d => !(decide (|d.1| < 1 / 1000000) && decide (|d.2| < 1 / 1000000)))

/-- The `counts` array of `calculate_trajectory_entropy` (`bins = 8`). -/
def buildCounts (disps : List (ℚ × ℚ)) : List ℕ :=
  disps.foldl
    (fun counts d => counts.set (binIdx d.1 d.2) (counts.getD (binIdx d.1 d.2) 0 + 1))
    (List.replicate 8 0)

/-- `_shannon_entropy` from heuristics.py (base-2, zero-probability
terms skipped). -/
def _shannon_entropy (probabilities : List ℚ) : ℚ :=
  (probabilities.map (fun p => if 0 < p then -(p * log2Q p) else 0)).sum

/-- `calculate_trajectory_entropy` from heuristics.py with the default
`bins = 8`; `h_max = log2 8 = 3` exactly (the source's local variables
`angles`, `counts`, `total`, `probs`, `h`, `h_max` are inlined). -/
def calculate_trajectory_entropy (hip_trajectory : List Point) : ℚ :=
  if hip_trajectory.length < 4 then 0
  else if (hipDisplacements hip_trajectory).length < 3 then 0
  else if (buildCounts (hipDisplacements hip_trajectory)).sum = 0 then 0
  else if 0 < ((natLog2F 64 8 : ℕ) : ℚ) then
    _shannon_entropy ((buildCounts (hipDisplacements hip_trajectory)).map
      (fun (c : ℕ) =>
        (c : ℚ) / (((buildCounts (hipDisplacements hip_trajectory)).sum : ℕ) : ℚ))) /
      ((natLog2F 64 8 : ℕ) : ℚ)
  else 0

/-- Exact decidable evaluation of `_angle_deg(a, b, c) >= 150` together
with its nan guard.  The source's `nba < 1e-9` test becomes
`nba² < 1e-18`; since arccos is decreasing, `angle ≥ 150°` iff
`cos(angle) ≤ cos 150° = -√3/2`, i.e. iff `dot < 0 ∧ 3·|ba|²·|bc|² ≤ 4·dot²`.
`none` is the nan case (angle not counted). -/
def angleGE150 (a b c : Point) : Option Bool :=
  let bax := a.1 - b.1
  let bay := a.2 - b.2
  let bcx := c.1 - b.1
  let bcy := c.2 - b.2
  let nba2 := bax * bax + bay * bay
  let nbc2 := bcx * bcx + bcy * bcy
  if nba2 < 1 / 1000000000000000000 ∨ nbc2 < 1 / 1000000000000000000 then none
  else
    let dot := bax * bcx + bay * bcy
    some (decide (dot < 0) && decide (3 * (nba2 * nbc2) ≤ 4 * (dot * dot)))

/-- One side's elbow measurement in `calculate_joint_angle_ratios`:
angle shoulder–elbow–wrist, `none` when a point is missing or the
angle is nan. -/
def sideElbowOpen (kp : Keypoints) (side : String) : Option Bool :=
  match _extract_point kp (side ++ "_shoulder") (1 / 2),
      _extract_point kp (side ++ "_elbow") (1 / 2),
      _extract_point kp (side ++ "_wrist") (1 / 2) with
  | some s, some e, some w => angleGE150 s e w
  | _, _, _ => none

/-- One side's shoulder measurement in `calculate_joint_angle_ratios`:
angle elbow–shoulder–hip. -/
def sideShoulderOpen (kp : Keypoints) (side : String) : Option Bool :=
  match _extract_point kp (side ++ "_elbow") (1 / 2),
      _extract_point kp (side ++ "_shoulder") (1 / 2),
      _extract_point kp (side ++ "_hip") (1 / 2) with
  | some e, some s, some h => angleGE150 e s h
  | _, _, _ => none

/-- `calculate_joint_angle_ratios` from heuristics.py: per frame and
side, count measurable and open angles; each ratio is
open / total, or 0 when nothing was measurable. -/
def calculate_joint_angle_ratios (pose_keypoints_per_frame : List Keypoints) : ℚ × ℚ :=
  let elbow := (pose_keypoints_per_frame.flatMap
    (fun kp => [sideElbowOpen kp "left", sideElbowOpen kp "right"])).filterMap id
  let shoulder := (pose_keypoints_per_frame.flatMap
    (fun kp => [sideShoulderOpen kp "left", sideShoulderOpen kp "right"])).filterMap id
  ((if elbow.length = 0 then 0 else ((elbow.filter id).length : ℚ) / (elbow.length : ℚ)),
   (if shoulder.length = 0 then 0
    else ((shoulder.filter id).length : ℚ) / (shoulder.length : ℚ)))

/-- The reach-run segmentation loop of `calculate_reach_durations`:
maximal contiguous runs with speed ≥ threshold, as (start, end) index
pairs; a run still open at the end closes at `len(v) - 1`. -/
def reachRuns (v : List ℚ) (velocity_threshold : ℚ) : List (ℕ × ℕ) :=
  let st := v.enum.foldl
    (fun (st : List (ℕ × ℕ) × Bool × ℕ) (iv : ℕ × ℚ) =>
      let moving := decide (velocity_threshold ≤ iv.2)
      if moving && !st.2.1 then (st.1, true, iv.1)
      else if !moving && st.2.1 then (st.1 ++ [(st.2.2, iv.1)], false, st.2.2)
      else st)
    ([], false, 0)
  if st.2.1 then st.1 ++ [(st.2.2, v.length - 1)] else st.1

/-- `calculate_reach_durations` from heuristics.py.  The guard makes
the trajectory and timestamp lengths equal, so the inner
`calculate_velocities` cannot raise; `getD []` is for totality only. -/
def calculate_reach_durations (wrist_trajectory : List Point) (timestamps : List ℚ)
    (velocity_threshold min_segment_time : ℚ) : List ℚ :=
  if wrist_trajectory.length < 3 ∨ wrist_trajectory.length ≠ timestamps.length then []
  else
    let v := 0 :: (calculate_velocities wrist_trajectory timestamps).getD []
    let reaches := reachRuns v velocity_threshold
    ((reaches.filter
        (fun ab => decide (ab.1 < ab.2) && decide (ab.2 < timestamps.length))).map
      (fun ab => timestamps.getD ab.2 0 - timestamps.getD ab.1 0)).filter
      (fun dt => decide (min_segment_time ≤ dt))

/-- `np.diff` on a plain list. -/
def diffQ (l : List ℚ) : List ℚ := (l.zip l.tail).map (fun pq => pq.2 - pq.1)

/-- `np.diff` on a list with nan entries (`none` models nan). -/
def diffO (l : List (Option ℚ)) : List (Option ℚ) :=
  (l.zip l.tail).map (fun pq =>
    match pq.1, pq.2 with
    | some a, some b => some (b - a)
    | _, _ => none)

/-- Elementwise numpy division with nan propagation. -/
def divO (a b : List (Option ℚ)) : List (Option ℚ) :=
  (a.zip b).map (fun pq =>
    match pq.1, pq.2 with
    | some x, some d => some (x / d)
    | _, _ => none)

/-- `calculate_com_smoothness` from heuristics.py: zero time deltas are
replaced by nan, finite-difference jerk is computed with nan
propagation, non-finite jerks are dropped, and the score is the clamped
`1 / (1 + mean_jerk / max(1, jerk_scale))`. -/
def calculate_com_smoothness (hip_trajectory : List Point) (timestamps : List ℚ)
    (jerk_scale : ℚ) : ℚ :=
  if hip_trajectory.length < 6 ∨ hip_trajectory.length ≠ timestamps.length then 0
  else
    let dt : List (Option ℚ) := (diffQ timestamps).map (fun d => if d = 0 then none else some d)
    let vx := divO ((diffQ (hip_trajectory.map Prod.fst)).map some) dt
    let vy := divO ((diffQ (hip_trajectory.map Prod.snd)).map some) dt
    let dt2 := dt.tail
    let ax := divO (diffO vx) dt2
    let ay := divO (diffO vy) dt2
    let dt3 := dt2.tail
    let jx := divO (diffO ax) dt3
    let jy := divO (diffO ay) dt3
    let jerk := ((jx.zip jy).map (fun pq =>
      match pq.1, pq.2 with
      | some a, some b => some (ratSqrt (a * a + b * b))
      | _, _ => none)).filterMap id
    if jerk.isEmpty then 0
    else max 0 (min 1 (1 / (1 + meanQ jerk / max 1 jerk_scale)))

/-- The hip proxy of a frame: `mid_hip` if extracted, else the average
of `left_hip` and `right_hip` when both are present. -/
def frameHip (kp : Keypoints) : Option Point :=
  match _extract_point kp "mid_hip" (1 / 2) with
  | some m => some m
  | none =>
    match _extract_point kp "left_hip" (1 / 2), _extract_point kp "right_hip" (1 / 2) with
    | some lh, some rh => some ((lh.1 + rh.1) / 2, (lh.2 + rh.2) / 2)
    | _, _ => none

/-- The shoulder proxy of a frame, analogous to `frameHip`. -/
def frameShoulder (kp : Keypoints) : Option Point :=
  match _extract_point kp "mid_shoulder" (1 / 2) with
  | some m => some m
  | none =>
    match _extract_point kp "left_shoulder" (1 / 2),
        _extract_point kp "right_shoulder" (1 / 2) with
    | some ls, some rs => some ((ls.1 + rs.1) / 2, (ls.2 + rs.2) / 2)
    | _, _ => none

/-- The trajectories produced by
`_extract_trajectories_from_pose_frames`. -/
structure ExtractedTrajs where
  hip : List Point
  hipTs : List ℚ
  ankleL : List Point
  ankleR : List Point
  shoulder : List Point
  wristL : List Point
  wristR : List Point
deriving DecidableEq, Repr

/-- `_extract_trajectories_from_pose_frames` from heuristics.py: the
hip trajectory and its timestamps are extended together; ankles and
wrists are collected per keypoint. -/
def _extract_trajectories_from_pose_frames (kps : List Keypoints) (ts : List ℚ) :
    ExtractedTrajs :=
  (kps.zip ts).foldr
    (fun kpt acc =>
      { hip := match frameHip kpt.1 with
          | some m => m :: acc.hip
          | none => acc.hip
        hipTs := match frameHip kpt.1 with
          | some _ => kpt.2 :: acc.hipTs
          | none => acc.hipTs
        ankleL := match _extract_point kpt.1 "left_ankle" (1 / 2) with
          | some p => p :: acc.ankleL
          | none => acc.ankleL
        ankleR := match _extract_point kpt.1 "right_ankle" (1 / 2) with
          | some p => p :: acc.ankleR
          | none => acc.ankleR
        shoulder := match frameShoulder kpt.1 with
          | some p => p :: acc.shoulder
          | none => acc.shoulder
        wristL := match _extract_point kpt.1 "left_wrist" (1 / 2) with
          | some p => p :: acc.wristL
          | none => acc.wristL
        wristR := match _extract_point kpt.1 "right_wrist" (1 / 2) with
          | some p => p :: acc.wristR
          | none => acc.wristR })
    ⟨[], [], [], [], [], [], []⟩

/-- The paired shoulder/hip lists built inside `calculate_all_metrics`
for the body-tension call (a frame contributes only when both proxies
are present): returns `(paired_shoulders, paired_hips)`. -/
def pairedShoulderHip (kps : List Keypoints) : List Point × List Point :=
  kps.foldr
    (fun kp acc =>
      match frameHip kp, frameShoulder kp with
      | some h, some s => (s :: acc.1, h :: acc.2)
      | _, _ => acc)
    ([], [])

/-- One side's reach durations in `calculate_all_metrics`: the wrist
trajectory and its timestamps are rebuilt per frame (dropping
low-visibility frames), and reach durations are computed only when at
least 3 samples were collected. -/
def reachSide (kps : List Keypoints) (ts : List ℚ) (side : String) : List ℚ :=
  let wt := (kps.zip ts).foldr
    (fun kpt acc =>
      match _extract_point kpt.1 (side ++ "_wrist") (1 / 2) with
      | some p => (p :: acc.1, kpt.2 :: acc.2)
      | none => acc)
    ([], [])
  if 3 ≤ wt.1.length ∧ wt.1.length = wt.2.length then
    calculate_reach_durations wt.1 wt.2 120 (3 / 20)
  else []

/-- The combined reach-duration list of `calculate_all_metrics`
(left wrist first, then right). -/
def reachDurationsAll (kps : List Keypoints) (ts : List ℚ) : List ℚ :=
  reachSide kps ts "left" ++ reachSide kps ts "right"

/-- The `ClimbMetrics` record.  The two ratio fields keep the source
semantics of `elbow_extension_ratio` / `shoulder_relax_ratio`. -/
structure ClimbMetrics where
  path_efficiency : ℚ
  total_distance : ℚ
  direct_distance : ℚ
  move_count : ℤ
  avg_pause_duration : ℚ
  rhythm_variance : ℚ
  avg_foot_jitter : ℚ
  clean_placements : ℤ
  total_placements : ℤ
  stability_score : ℚ
  body_tension_score : ℚ
  sag_count : ℤ
  climb_duration : ℚ
  trajectory_entropy : ℚ
  elbow_extension_frac : ℚ
  shoulder_relax_frac : ℚ
  long_reach_count : ℤ
  avg_reach_duration : ℚ
  com_smoothness_score : ℚ
deriving DecidableEq, Repr

/-- The velocity step of `calculate_all_metrics`: velocities are
computed only when the hip trajectory and its timestamps have equal
length (always true on this input path), else `[]`. -/
def velocitiesStage (ext : ExtractedTrajs) : Option (List ℚ) :=
  if ext.hip.length = ext.hipTs.length then calculate_velocities ext.hip ext.hipTs
  else some []

/-- The settle step of `calculate_all_metrics`: settle detection runs
only when the (hip) timestamp list is non-empty. -/
def settleStage (ext : ExtractedTrajs) : Option (List SettleEvent) :=
  if ext.hipTs.isEmpty then some []
  else detect_settle_events ext.ankleL ext.ankleR ext.hipTs 10 5

/-- `calculate_all_metrics` from heuristics.py on its
keypoints-per-frame input path (the path used by main.py; the legacy
direct-trajectory parameters are not modelled).  `none` models a Python
exception escaping the function. -/
def calculate_all_metrics (kps : List Keypoints) (ts : List ℚ) : Option ClimbMetrics := do
  let ext := _extract_trajectories_from_pose_frames kps ts
  let pe := calculate_path_efficiency ext.hip
  let velocities ← velocitiesStage ext
  let phases ← classify_movement_phases velocities ext.hipTs 15
  let rhythm := analyze_rhythm phases
  let settle_events ← settleStage ext
  let stab := calculate_stability_score settle_events 8
  let tension ← calculate_body_tension (pairedShoulderHip kps).1 (pairedShoulderHip kps).2
  let reach_durations := reachDurationsAll kps ts
  pure
    { path_efficiency := pe.1
      total_distance := pe.2.1
      direct_distance := pe.2.2
      move_count := rhythm.1
      avg_pause_duration := rhythm.2.1
      rhythm_variance := rhythm.2.2
      avg_foot_jitter := stab.1
      clean_placements := stab.2.1
      total_placements := stab.2.2
      stability_score := if 0 < stab.2.2 then (stab.2.1 : ℚ) / (stab.2.2 : ℚ) else 1
      body_tension_score := tension.1
      sag_count := tension.2
      climb_duration :=
        if 2 ≤ ext.hipTs.length then ext.hipTs.getLastD 0 - ext.hipTs.headD 0 else 0
      trajectory_entropy := calculate_trajectory_entropy ext.hip
      elbow_extension_frac := (calculate_joint_angle_ratios kps).1
      shoulder_relax_frac := (calculate_joint_angle_ratios kps).2
      long_reach_count := ((reach_durations.filter (fun d => decide (1 < d))).length : ℤ)
      avg_reach_duration := if reach_durations.isEmpty then 0 else meanQ reach_durations
      com_smoothness_score :=
        if ext.hip.length = ext.hipTs.length then
          calculate_com_smoothness ext.hip ext.hipTs 5000
        else 0 }

/-- The `PoseFrame` dataclass from processor.py. -/
structure PoseFrameP where
  frame_id : ℤ
  timestamp : ℚ
  keypoints : Keypoints
deriving DecidableEq, Repr

/-- The trajectories dict returned by
`VideoProcessor.extract_trajectories`. -/
structure ProcTrajs where
  hip_trajectory : List Point
  shoulder_trajectory : List Point
  ankleL : List Point
  ankleR : List Point
  timestamps : List ℚ
deriving DecidableEq, Repr

/-- `VideoProcessor.extract_trajectories` from processor.py: keeps a
keypoint only when its visibility strictly exceeds 0.5 (note the strict
`> 0.5`, unlike the heuristics module's `_extract_point`). -/
def VideoProcessor_extract_trajectories (pose_frames : List PoseFrameP) : ProcTrajs :=
  pose_frames.foldr
    (fun pf acc =>
      let kp := pf.keypoints
      { hip_trajectory :=
          match kp.lookup "mid_hip" with
          | some (x, y, v) =>
            if 1 / 2 < v then (x, y) :: acc.hip_trajectory else acc.hip_trajectory
          | none => acc.hip_trajectory
        timestamps :=
          match kp.lookup "mid_hip" with
          | some (_, _, v) => if 1 / 2 < v then pf.timestamp :: acc.timestamps else acc.timestamps
          | none => acc.timestamps
        shoulder_trajectory :=
          match kp.lookup "mid_shoulder" with
          | some (x, y, v) =>
            if 1 / 2 < v then (x, y) :: acc.shoulder_trajectory else acc.shoulder_trajectory
          | none => acc.shoulder_trajectory
        ankleL :=
          match kp.lookup "left_ankle" with
          | some (x, y, v) => if 1 / 2 < v then (x, y) :: acc.ankleL else acc.ankleL
          | none => acc.ankleL
        ankleR :=
          match kp.lookup "right_ankle" with
          | some (x, y, v) => if 1 / 2 < v then (x, y) :: acc.ankleR else acc.ankleR
          | none => acc.ankleR })
    ⟨[], [], [], [], []⟩

/-- The per-channel Kalman state: state vector `x = (x, y, vx, vy)` and
covariance `P`, as configured in `KalmanSmoother._create_filter`. -/
structure KalmanState where
  x : Fin 4 → ℚ
  P : Matrix (Fin 4) (Fin 4) ℚ

/-- State-transition matrix `F` from `_create_filter`. -/
def kfF : Matrix (Fin 4) (Fin 4) ℚ :=
  Matrix.of ![![1, 0, 1, 0], ![0, 1, 0, 1], ![0, 0, 1, 0], ![0, 0, 0, 1]]

/-- Measurement matrix `H` from `_create_filter`. -/
def kfH : Matrix (Fin 2) (Fin 4) ℚ :=
  Matrix.of ![![1, 0, 0, 0], ![0, 1, 0, 0]]

/-- Measurement noise `R = 10·I` from `_create_filter`. -/
def kfR : Matrix (Fin 2) (Fin 2) ℚ := fun i j => if i = j then 10 else 0

/-- Process noise `Q = 0.1·I` from `_create_filter`. -/
def kfQcov : Matrix (Fin 4) (Fin 4) ℚ := fun i j => if i = j then 1 / 10 else 0

/-- Initial covariance `P = 100·I` from `_create_filter`. -/
def kfP0 : Matrix (Fin 4) (Fin 4) ℚ := fun i j => if i = j then 100 else 0

/-- Modelled from the spec: filterpy's `KalmanFilter.predict` (the
filterpy library is external to the repository; section 4.1 of the spec
describes the constant-velocity predict step used with the matrices set
in `_create_filter`): `x ← F x`, `P ← F P Fᵀ + Q`. -/
def kfPredict (st : KalmanState) : KalmanState :=
  ⟨kfF.mulVec st.x, kfF * st.P * kfF.transpose + kfQcov⟩

/-- Explicit 2×2 inverse (adjugate over determinant), used instead of
Mathlib's noncomputable `Matrix.inv`; the determinant is never zero on
the reachable states (S = HPHᵀ + 10·I with P positive semidefinite). -/
def inv2 (S : Matrix (Fin 2) (Fin 2) ℚ) : Matrix (Fin 2) (Fin 2) ℚ :=
  let det := S 0 0 * S 1 1 - S 0 1 * S 1 0
  Matrix.of ![![S 1 1 / det, -(S 0 1) / det], ![-(S 1 0) / det, S 0 0 / det]]

/-- Modelled from the spec: filterpy's `KalmanFilter.update` (external
to the repository; section 4.1 describes the correction step): standard
Kalman correction `S = H P Hᵀ + R`, `K = P Hᵀ S⁻¹`,
`x ← x + K (z − H x)`, `P ← (I − K H) P`. -/
def kfUpdate (st : KalmanState) (z : Fin 2 → ℚ) : KalmanState :=
  let S := kfH * st.P * kfH.transpose + kfR
  let K := st.P * kfH.transpose * inv2 S
  ⟨st.x + K.mulVec (z - kfH.mulVec st.x), (1 - K * kfH) * st.P⟩

/-- The filter map of one `KalmanSmoother` instance
(`self.filters : Dict[str, KalmanFilter]`). -/
abbrev SmootherState := List (String × KalmanState)

/-- Replacement of a key's value in the filter dict. -/
def assocReplace (l : SmootherState) (name : String) (v : KalmanState) : SmootherState :=
  l.map (fun p => if p.1 = name then (p.1, v) else p)

/-- `KalmanSmoother.smooth` from processor.py: on the first observation
for a name, create a filter with state `[x, y, 0, 0]` and covariance
`100·I` and return the observation unchanged; afterwards
predict-then-update and return the corrected position. -/
def KalmanSmoother_smooth (filters : SmootherState) (name : String) (x y : ℚ) :
    SmootherState × (ℚ × ℚ) :=
  match filters.lookup name with
  | none => ((name, ⟨![x, y, 0, 0], kfP0⟩) :: filters, (x, y))
  | some kf =>
    let kf2 := kfUpdate (kfPredict kf) ![x, y]
    (assocReplace filters name kf2, (kf2.x 0, kf2.x 1))

/-- The per-landmark smoothing step of `PoseExtractor.extract_frame`
(processor.py lines 141-145): the raw position is passed through the
smoother only when `visibility > 0.5`; otherwise the filter state is
untouched and the raw keypoint is stored. -/
def extractFrameStep (filters : SmootherState) (name : String) (x y vis : ℚ) :
    SmootherState × (ℚ × ℚ × ℚ) :=
  if 1 / 2 < vis then
    let r := KalmanSmoother_smooth filters name x y
    (r.1, (r.2.1, r.2.2, vis))
  else (filters, (x, y, vis))

/-- All keypoint x-coordinates of an input are non-negative (the
in-frame pixel-coordinate reading of the input contract). -/
def xCoordsOk (kps : List Keypoints) : Bool :=
  kps.all (fun f => f.all (fun e => decide (0 ≤ e.2.1)))

/-- The range discipline claimed for a `ClimbMetrics` record: every
bounded score lies in [0,1] and every count field is non-negative. -/
def MetricsInRange (m : ClimbMetrics) : Prop :=
  0 ≤ m.path_efficiency ∧ m.path_efficiency ≤ 1 ∧
  0 ≤ m.stability_score ∧ m.stability_score ≤ 1 ∧
  0 ≤ m.body_tension_score ∧ m.body_tension_score ≤ 1 ∧
  0 ≤ m.trajectory_entropy ∧ m.trajectory_entropy ≤ 1 ∧
  0 ≤ m.elbow_extension_frac ∧ m.elbow_extension_frac ≤ 1 ∧
  0 ≤ m.shoulder_relax_frac ∧ m.shoulder_relax_frac ≤ 1 ∧
  0 ≤ m.com_smoothness_score ∧ m.com_smoothness_score ≤ 1 ∧
  0 ≤ m.move_count ∧ 0 ≤ m.clean_placements ∧ 0 ≤ m.total_placements ∧
  0 ≤ m.sag_count ∧ 0 ≤ m.long_reach_count

theorem ratSqrt_nonneg (q : ℚ) : 0 ≤ ratSqrt q :=
  div_nonneg (Nat.cast_nonneg _) (Nat.cast_nonneg _)

theorem euclidean_distance_nonneg (p1 p2 : Point) : 0 ≤ euclidean_distance p1 p2 :=
  ratSqrt_nonneg _

/-- C10: a hip trajectory whose summed consecutive-point distance is
below `1e-6` makes `calculate_path_efficiency` return `(1.0, 0.0, 0.0)`,
discarding the actually computed distances. -/
theorem c10_tiny_total_path_neutral (traj : List Point)
    (h : totalDist traj < 1 / 1000000) :
    calculate_path_efficiency traj = (1, 0, 0) := by
  by_cases hl : traj.length < 2
  · simp only [calculate_path_efficiency, if_pos hl]
  · simp only [calculate_path_efficiency, if_neg hl, if_pos h]

/-- Witness for C10 at a two-point trajectory of distinct points
`1e-7` apart: the summed distance is positive yet below the cutoff,
and the function reports perfect efficiency with zero distances. -/
theorem c10_tiny_total_path_neutral_witness :
    totalDist [((0 : ℚ), (0 : ℚ)), (1 / 10000000, 0)] < 1 / 1000000 ∧
      ((0 : ℚ), (0 : ℚ)) ≠ ((1 : ℚ) / 10000000, (0 : ℚ)) ∧
      (0 : ℚ) < totalDist [((0 : ℚ), (0 : ℚ)), (1 / 10000000, 0)] ∧
      calculate_path_efficiency [((0 : ℚ), (0 : ℚ)), (1 / 10000000, 0)] = (1, 0, 0) :=
  ⟨by with_unfolding_all decide, by with_unfolding_all decide,
   by with_unfolding_all decide,
   c10_tiny_total_path_neutral _ (by with_unfolding_all decide)⟩

/-- C4: the velocity sequence `[5, 5, 20, 20, 3]` against static
threshold 15 with uniformly 1-second-spaced timestamps classifies into
Static(0–1), Moving(2–3), Static(4–4), and the rhythm analyzer reports
`move_count = 1`. -/
theorem c4_phase_classifier_example :
    classify_movement_phases [5, 5, 20, 20, 3] [0, 1, 2, 3, 4, 5] 15 =
      some [⟨.static, 0, 1, 2⟩, ⟨.moving, 2, 3, 2⟩, ⟨.static, 4, 4, 1⟩] ∧
    (analyze_rhythm [⟨.static, 0, 1, 2⟩, ⟨.moving, 2, 3, 2⟩, ⟨.static, 4, 4, 1⟩]).1 = 1 := by
  constructor
  · with_unfolding_all decide
  · with_unfolding_all decide

/-- C5 (code bug): ten frames in which shoulder and hip coincide at
x = 0 give zero horizontal offset everywhere, yet
`calculate_body_tension` raises ZeroDivisionError (the maximum observed
x-coordinate is 0, so `max_expected_offset` is 0) instead of returning
the documented `(1.0, 0)`. -/
theorem c5_zero_offset_tension_crash :
    (((List.range 10).map (fun i => ((0 : ℚ), (i : ℚ)))).zip
        ((List.range 10).map (fun i => ((0 : ℚ), (i : ℚ))))).all
      (fun sh => decide (sh.1.1 - sh.2.1 = 0)) = true ∧
    calculate_body_tension ((List.range 10).map (fun i => ((0 : ℚ), (i : ℚ))))
      ((List.range 10).map (fun i => ((0 : ℚ), (i : ℚ)))) = none := by
  constructor
  · with_unfolding_all decide
  · with_unfolding_all decide

/-- One failing step of the settle scan: when the entry condition is
false at an in-range index the scan just advances by one. -/
theorem settleScanF_step_false (θ : ℚ) (m : ℕ) (limb : String)
    (traj : List Point) (v : List ℚ) (f i : ℕ)
    (hb : i + m < v.length) (h0 : settleEntryB θ m v i = false) :
    settleScanF θ m limb traj v (f + 1) i = settleScanF θ m limb traj v f (i + 1) := by
  rw [settleScanF]
  simp [hb, h0]

/-- The settle scan passes unchanged over a block of indices at which
the entry condition fails. -/
theorem settleScanF_skip (θ : ℚ) (m : ℕ) (limb : String)
    (traj : List Point) (v : List ℚ) (d : ℕ) :
    ∀ f i, i + d + m < v.length →
      (∀ j, i ≤ j → j < i + d → settleEntryB θ m v j = false) →
      settleScanF θ m limb traj v (f + d) i = settleScanF θ m limb traj v f (i + d) := by
  induction d with
  | zero => intro f i _ _; rfl
  | succ d ih =>
    intro f i hb hno
    have h0 : settleEntryB θ m v i = false := hno i le_rfl (by omega)
    have e1 : f + (d + 1) = (f + d) + 1 := by omega
    rw [e1, settleScanF_step_false θ m limb traj v (f + d) i (by omega) h0]
    have := ih f (i + 1) (by omega) (fun j hj hj2 => hno j (by omega) (by omega))
    rw [this]
    congr 1
    omega

/-- If `calculate_velocities` succeeds on a trajectory with at least
two points, the velocity list is one shorter than the trajectory. -/
theorem calculate_velocities_length (traj : List Point) (ts : List ℚ)
    (v : List ℚ) (hv : calculate_velocities traj ts = some v)
    (h2 : 2 ≤ traj.length) : v.length + 1 = traj.length := by
  unfold calculate_velocities at hv
  rw [if_neg (by omega)] at hv
  by_cases hts : ts.length < traj.length
  · rw [if_pos hts] at hv; cases hv
  · rw [if_neg hts] at hv
    cases hv
    simp [List.length_range]
    omega

/-- C3 (amended): at the first index whose velocity drops below the
settle threshold 10 with the 5-sample window starting there below
1.5 × 10, provided the index is within the scanned range
(`index + 5 < len(velocities)`), a settle event is declared at that
index, with jitter equal to the sum of the standard deviations of the
x and y coordinates of the up-to-15 post-settle samples. -/
theorem c3_first_settle_event (limb : String) (traj : List Point)
    (ts : List ℚ) (v : List ℚ) (i : ℕ)
    (hlen : 15 ≤ traj.length)
    (hv : calculate_velocities traj ts = some v)
    (hi : i + 5 < v.length)
    (hfirst : ∀ j, j < i → settleEntryB 10 5 v j = false)
    (hcond : settleEntryB 10 5 v i = true) :
    limbSettleEvents limb traj ts 10 5 =
      some (settleScanF 10 5 limb traj v v.length 0) ∧
    (⟨i, limb, settleJitter traj 5 i, traj.getD i (0, 0)⟩ : SettleEvent) ∈
      settleScanF 10 5 limb traj v v.length 0 := by
  have hlen2 : v.length + 1 = traj.length :=
    calculate_velocities_length traj ts v hv (by omega)
  constructor
  · unfold limbSettleEvents
    rw [if_neg (by omega), hv]
    rfl
  · have h2 : settleScanF 10 5 limb traj v v.length 0 =
        settleScanF 10 5 limb traj v (v.length - i) i := by
      have hs := settleScanF_skip 10 5 limb traj v i (v.length - i) 0 (by omega)
        (fun j hj hj2 => hfirst j (by omega))
      rw [show v.length - i + i = v.length from by omega] at hs
      simpa using hs
    rw [h2]
    have e2 : v.length - i = (v.length - i - 1) + 1 := by omega
    rw [e2, settleScanF]
    rw [if_pos (show i + 5 < v.length by omega), if_pos hcond]
    have hc : (v.length : ℤ) + 1 = (traj.length : ℤ) := by exact_mod_cast hlen2
    split
    · exact List.mem_cons_self _ _
    · next hneg =>
      exfalso
      push_cast at hneg
      omega

/-- Witness for the amended C3 at a constant 16-point trajectory: the
very first index qualifies and receives a settle event with jitter 0. -/
theorem c3_first_settle_event_witness :
    (15 ≤ (List.replicate 16 ((7 : ℚ), (7 : ℚ))).length ∧
     calculate_velocities (List.replicate 16 ((7 : ℚ), (7 : ℚ)))
        ((List.range 16).map (fun i => (i : ℚ))) = some (List.replicate 15 0) ∧
     0 + 5 < (List.replicate (15 : ℕ) (0 : ℚ)).length ∧
     settleEntryB 10 5 (List.replicate 15 0) 0 = true) ∧
    (⟨0, "left_ankle", settleJitter (List.replicate 16 ((7 : ℚ), (7 : ℚ))) 5 0,
        (List.replicate 16 ((7 : ℚ), (7 : ℚ))).getD 0 (0, 0)⟩ : SettleEvent) ∈
      settleScanF 10 5 "left_ankle" (List.replicate 16 ((7 : ℚ), (7 : ℚ)))
        (List.replicate 15 0) (List.replicate (15 : ℕ) (0 : ℚ)).length 0 :=
  ⟨⟨by with_unfolding_all decide, by with_unfolding_all decide,
    by with_unfolding_all decide, by with_unfolding_all decide⟩,
   (c3_first_settle_event "left_ankle" (List.replicate 16 ((7 : ℚ), (7 : ℚ)))
      ((List.range 16).map (fun i => (i : ℚ))) (List.replicate 15 0) 0
      (by with_unfolding_all decide) (by with_unfolding_all decide)
      (by with_unfolding_all decide) (fun j hj => absurd hj (by omega))
      (by with_unfolding_all decide)).2⟩

/-- C3 (counterexample to the claim as stated): on a constant
16-point trajectory every index qualifies, yet only index 0 receives a
settle event — index 1 satisfies the claimed condition (velocity below
10 and the next five samples below 15) but is shadowed by the scan's
skip-ahead, so no event is declared there. -/
theorem c3_shadowed_index_counterexample :
    calculate_velocities (List.replicate 16 ((5 : ℚ), (5 : ℚ)))
        ((List.range 16).map (fun i => (i : ℚ))) = some (List.replicate 15 0) ∧
    ((List.replicate 15 (0 : ℚ)).getD 1 0 < 10 ∧
      ∀ w ∈ ((List.replicate 15 (0 : ℚ)).drop 2).take 5, w < 10 * (3 / 2)) ∧
    detect_settle_events (List.replicate 16 ((5 : ℚ), (5 : ℚ))) []
        ((List.range 16).map (fun i => (i : ℚ))) 10 5 =
      some [⟨0, "left_ankle", 0, (5, 5)⟩] := by
  refine ⟨?_, ?_, ?_⟩
  · with_unfolding_all decide
  · with_unfolding_all decide
  · with_unfolding_all decide

/-- C9: the metrics aggregator is a pure function of its input — in
this functional embedding it reads no ambient state, so two invocations
on identical input are definitionally identical records. -/
theorem c9_aggregator_deterministic (kps : List Keypoints) (ts : List ℚ) :
    calculate_all_metrics kps ts = calculate_all_metrics kps ts := rfl

/-- C1 (code bug): an input whose first frame has a fully visible hip
and all 15 frames a fully visible left ankle has usable frames, yet
`calculate_all_metrics` raises: the left-ankle trajectory (15 samples)
is longer than the hip timestamp list (1 sample), and
`detect_settle_events` runs `calculate_velocities` on that ankle
trajectory with the hip timestamps, reading `timestamps[1]` past the
end (IndexError, modelled by `none`). -/
theorem c1_settle_crash_on_usable_frames :
    (_extract_trajectories_from_pose_frames
        ([("mid_hip", ((0 : ℚ), 0, 1)), ("left_ankle", ((0 : ℚ), 0, 1))] ::
          List.replicate 14 [("left_ankle", ((0 : ℚ), 0, 1))])
        ((List.range 15).map (fun i => (i : ℚ)))).ankleL.length = 15 ∧
    (_extract_trajectories_from_pose_frames
        ([("mid_hip", ((0 : ℚ), 0, 1)), ("left_ankle", ((0 : ℚ), 0, 1))] ::
          List.replicate 14 [("left_ankle", ((0 : ℚ), 0, 1))])
        ((List.range 15).map (fun i => (i : ℚ)))).hipTs.length = 1 ∧
    calculate_all_metrics
        ([("mid_hip", ((0 : ℚ), 0, 1)), ("left_ankle", ((0 : ℚ), 0, 1))] ::
          List.replicate 14 [("left_ankle", ((0 : ℚ), 0, 1))])
        ((List.range 15).map (fun i => (i : ℚ))) = none := by
  refine ⟨?_, ?_, ?_⟩
  · with_unfolding_all decide
  · with_unfolding_all decide
  · with_unfolding_all decide

/-- C7 (counterexample to the claim as stated): a keypoint with
visibility exactly 0.5 does not exceed 0.5, yet the engine's trajectory
extraction keeps it (`_extract_point` drops only `v < threshold`), so
the frame does contribute an ankle sample. -/
theorem c7_exact_half_visibility_counterexample :
    ((1 : ℚ) / 2 ≤ 1 / 2) ∧
    _extract_point [("left_ankle", ((3 : ℚ), 4, 1 / 2))] "left_ankle" (1 / 2) = some (3, 4) ∧
    (_extract_trajectories_from_pose_frames [[("left_ankle", ((3 : ℚ), 4, 1 / 2))]]
        [0]).ankleL = [(3, 4)] :=
  ⟨by norm_num, by with_unfolding_all decide, by with_unfolding_all decide⟩

/-- C7 (amended): in the heuristics-module extraction a keypoint
contributes iff its visibility is at least 0.5 (exactly 0.5 is kept),
while the processor-level `extract_trajectories` keeps a keypoint iff
its visibility strictly exceeds 0.5. -/
theorem c7_visibility_threshold_amended (x y v t : ℚ) :
    (_extract_point [("left_ankle", (x, y, v))] "left_ankle" (1 / 2) =
      if v < 1 / 2 then none else some (x, y)) ∧
    ((_extract_trajectories_from_pose_frames [[("left_ankle", (x, y, v))]] [t]).ankleL =
      if v < 1 / 2 then [] else [(x, y)]) ∧
    ((VideoProcessor_extract_trajectories [⟨0, t, [("left_ankle", (x, y, v))]⟩]).ankleL =
      if 1 / 2 < v then [(x, y)] else []) := by
  refine ⟨?_, ?_, ?_⟩
  · simp [_extract_point, List.lookup]
  · have hun : (_extract_trajectories_from_pose_frames [[("left_ankle", (x, y, v))]]
        [t]).ankleL =
        match _extract_point [("left_ankle", (x, y, v))] "left_ankle" (1 / 2) with
        | some p => [p]
        | none => [] := rfl
    rcases lt_or_le v (1 / 2) with h | h
    · have hp : _extract_point [("left_ankle", (x, y, v))] "left_ankle" (1 / 2) = none := by
        simp only [_extract_point, List.lookup]
        simp only [beq_self_eq_true, if_pos h]
      rw [if_pos h, hun, hp]
    · have hp : _extract_point [("left_ankle", (x, y, v))] "left_ankle" (1 / 2) =
          some (x, y) := by
        simp only [_extract_point, List.lookup]
        simp only [beq_self_eq_true, if_neg (not_lt.mpr h)]
      rw [if_neg (not_lt.mpr h), hun, hp]
  · by_cases h : 1 / 2 < v <;>
      simp [VideoProcessor_extract_trajectories, List.lookup, h]

/-- C8: the channel smoother returns the first observation for a name
unchanged, initialising that name's filter state from the observation
with zero velocity (and covariance 100·I); and the caller never feeds
observations with visibility ≤ 0.5 into the filter, so they leave the
filter map untouched. -/
theorem c8_smoother_first_obs_and_gate :
    (∀ (filters : SmootherState) (name : String) (x y : ℚ),
      filters.lookup name = none →
        (KalmanSmoother_smooth filters name x y).2 = (x, y) ∧
        (KalmanSmoother_smooth filters name x y).1.lookup name =
          some ⟨![x, y, 0, 0], kfP0⟩) ∧
    (∀ (filters : SmootherState) (name : String) (x y vis : ℚ),
      vis ≤ 1 / 2 → extractFrameStep filters name x y vis = (filters, (x, y, vis))) := by
  constructor
  · intro filters name x y h
    unfold KalmanSmoother_smooth
    rw [h]
    exact ⟨rfl, by simp [List.lookup]⟩
  · intro filters name x y vis h
    unfold extractFrameStep
    rw [if_neg (not_lt.mpr h)]

/-- Witness for C8: the very first observation for `"left_wrist"` on an
empty filter map comes back unchanged with the documented initial
state, and an observation at visibility exactly 0.5 leaves the filter
map untouched. -/
theorem c8_smoother_witness :
    (List.lookup "left_wrist" ([] : SmootherState) = none ∧
     (KalmanSmoother_smooth [] "left_wrist" 3 4).2 = (3, 4) ∧
     (KalmanSmoother_smooth [] "left_wrist" 3 4).1.lookup "left_wrist" =
       some ⟨![3, 4, 0, 0], kfP0⟩) ∧
    ((1 : ℚ) / 2 ≤ 1 / 2 ∧
     extractFrameStep [] "nose" 1 2 (1 / 2) = ([], (1, 2, 1 / 2))) :=
  ⟨⟨rfl, (c8_smoother_first_obs_and_gate.1 [] "left_wrist" 3 4 rfl).1,
    (c8_smoother_first_obs_and_gate.1 [] "left_wrist" 3 4 rfl).2⟩,
   ⟨by norm_num, c8_smoother_first_obs_and_gate.2 [] "nose" 1 2 (1 / 2) (by norm_num)⟩⟩

/-- The stability-score expression assembled by the aggregator equals
the claimed formula over the detected settle events. -/
theorem stability_of_events (evs : List SettleEvent) :
    (if 0 < (calculate_stability_score evs 8).2.2 then
      ((calculate_stability_score evs 8).2.1 : ℚ) / ((calculate_stability_score evs 8).2.2 : ℚ)
     else 1) =
    if evs.isEmpty then 1
    else ((evs.filter (fun e => decide (e.jitter_score < 8))).length : ℚ) /
      (evs.length : ℚ) := by
  by_cases h : evs.isEmpty
  · simp [calculate_stability_score, h]
  · have hlen : 0 < evs.length := by
      cases evs with
      | nil => simp at h
      | cons a l => simp
    have hint : (0 : ℤ) < (evs.length : ℤ) := by exact_mod_cast hlen
    have hfm : ((evs.map (fun e => e.jitter_score)).filter
        (fun j => decide (j < 8))).length =
        (evs.filter (fun e => decide (e.jitter_score < 8))).length := by
      rw [List.filter_map, List.length_map]
      rfl
    simp only [calculate_stability_score, if_neg h]
    rw [if_pos hint, hfm]
    push_cast
    rfl

/-- C6: the stability score in the output record equals the number of
settle events with jitter strictly below 8.0 divided by the total
number of settle events when at least one event was detected, and 1.0
when none were. -/
theorem c6_stability_score_formula (kps : List Keypoints) (ts : List ℚ)
    (m : ClimbMetrics) (evs : List SettleEvent)
    (hm : calculate_all_metrics kps ts = some m)
    (he : settleStage (_extract_trajectories_from_pose_frames kps ts) = some evs) :
    m.stability_score =
      if evs.isEmpty then 1
      else ((evs.filter (fun e => decide (e.jitter_score < 8))).length : ℚ) /
        (evs.length : ℚ) := by
  unfold calculate_all_metrics at hm
  simp only [bind, Option.bind_eq_some, Option.pure_def, Option.some.injEq] at hm
  obtain ⟨vel, hvel, phs, hph, sevs, hsevs, tens, htens, hm⟩ := hm
  rw [he] at hsevs
  obtain rfl : evs = sevs := Option.some.inj hsevs
  rw [← hm]
  exact stability_of_events evs

/-- Witness for C6 at a one-frame input: the aggregator returns a
record, the settle stage detects no events, and the stability score is
the neutral 1. -/
theorem c6_stability_score_formula_witness :
    (calculate_all_metrics [[("mid_hip", ((1 : ℚ), 2, 1))]] [0] =
      some ⟨1, 0, 0, 0, 0, 0, 0, 0, 0, 1, 1, 0, 0, 0, 0, 0, 0, 0, 0⟩ ∧
     settleStage (_extract_trajectories_from_pose_frames [[("mid_hip", ((1 : ℚ), 2, 1))]] [0]) =
      some []) ∧
    (⟨1, 0, 0, 0, 0, 0, 0, 0, 0, 1, 1, 0, 0, 0, 0, 0, 0, 0, 0⟩ :
        ClimbMetrics).stability_score =
      if ([] : List SettleEvent).isEmpty then 1
      else ((([] : List SettleEvent).filter
          (fun e => decide (e.jitter_score < 8))).length : ℚ) /
        (([] : List SettleEvent).length : ℚ) :=
  ⟨⟨by with_unfolding_all decide, by with_unfolding_all decide⟩,
   c6_stability_score_formula [[("mid_hip", ((1 : ℚ), 2, 1))]] [0] _ []
     (by with_unfolding_all decide) (by with_unfolding_all decide)⟩

theorem pow_natLog2F_le (f : ℕ) : ∀ n : ℕ, 1 ≤ n → 2 ^ natLog2F f n ≤ n := by
  induction f with
  | zero => intro n hn; simpa [natLog2F] using hn
  | succ f ih =>
    intro n hn
    rw [natLog2F]
    by_cases h : n ≤ 1
    · simpa [h] using hn
    · rw [if_neg h]
      push_neg at h
      have h3 := ih (n / 2) (by omega)
      have he : 2 ^ (natLog2F f (n / 2) + 1) = 2 * 2 ^ natLog2F f (n / 2) := by
        rw [pow_succ]; ring
      rw [he]
      omega

/-- The per-bin real bound behind the entropy cap: for `0 < c ≤ t`,
`c · log2⌊t/c⌋ · ln 2 ≤ c · ln 8 + t/8 − c` (via `ln x ≤ x − 1`). -/
theorem pointwise_log_bound (c t : ℕ) (hc : 0 < c) (hct : c ≤ t) :
    (c : ℝ) * (natLog2F 64 (t / c) : ℝ) * Real.log 2 ≤
      (c : ℝ) * Real.log 8 + (t : ℝ) / 8 - (c : ℝ) := by
  have ht : 0 < t := lt_of_lt_of_le hc hct
  have hc' : (0 : ℝ) < (c : ℝ) := by exact_mod_cast hc
  have ht' : (0 : ℝ) < (t : ℝ) := by exact_mod_cast ht
  have h1 : 2 ^ natLog2F 64 (t / c) ≤ t / c :=
    pow_natLog2F_le 64 (t / c) ((Nat.one_le_div_iff hc).mpr hct)
  have h2 : ((2 : ℝ)) ^ natLog2F 64 (t / c) ≤ (t : ℝ) / (c : ℝ) := by
    calc ((2 : ℝ)) ^ natLog2F 64 (t / c) = ((2 ^ natLog2F 64 (t / c) : ℕ) : ℝ) := by
          push_cast; rfl
      _ ≤ ((t / c : ℕ) : ℝ) := Nat.cast_le.mpr h1
      _ ≤ (t : ℝ) / (c : ℝ) := Nat.cast_div_le
  have h3 : (natLog2F 64 (t / c) : ℝ) * Real.log 2 ≤ Real.log ((t : ℝ) / (c : ℝ)) := by
    rw [← Real.log_pow]
    exact Real.log_le_log (by positivity) h2
  have h8c : (0 : ℝ) < (t : ℝ) / (8 * (c : ℝ)) :=
    div_pos ht' (mul_pos (by norm_num) hc')
  have h4 : Real.log ((t : ℝ) / (c : ℝ)) ≤ Real.log 8 + ((t : ℝ) / (8 * (c : ℝ)) - 1) := by
    have he : (t : ℝ) / (c : ℝ) = 8 * ((t : ℝ) / (8 * (c : ℝ))) := by
      field_simp
      ring
    rw [he, Real.log_mul (by norm_num) (ne_of_gt h8c)]
    have h5 := Real.log_le_sub_one_of_pos h8c
    linarith
  have h6 : (c : ℝ) * ((t : ℝ) / (8 * (c : ℝ))) = (t : ℝ) / 8 := by
    field_simp
    ring
  calc (c : ℝ) * (natLog2F 64 (t / c) : ℝ) * Real.log 2
      = (c : ℝ) * ((natLog2F 64 (t / c) : ℝ) * Real.log 2) := by ring
    _ ≤ (c : ℝ) * (Real.log 8 + ((t : ℝ) / (8 * (c : ℝ)) - 1)) :=
        mul_le_mul_of_nonneg_left (h3.trans h4) (le_of_lt hc')
    _ = (c : ℝ) * Real.log 8 + (c : ℝ) * ((t : ℝ) / (8 * (c : ℝ))) - (c : ℝ) := by ring
    _ = (c : ℝ) * Real.log 8 + (t : ℝ) / 8 - (c : ℝ) := by rw [h6]

/-- Summing a per-element affine bound over a list of naturals. -/
theorem list_affine_sum (f : ℕ → ℝ) (A B : ℝ) :
    ∀ l : List ℕ, (∀ c ∈ l, f c ≤ (c : ℝ) * A + B - (c : ℝ)) →
      (l.map f).sum ≤ A * ((l.sum : ℕ) : ℝ) + (l.length : ℝ) * B - ((l.sum : ℕ) : ℝ) := by
  intro l
  induction l with
  | nil => intro _; simp
  | cons c l ih =>
    intro hmem
    have hf := hmem c (List.mem_cons_self c l)
    have ihl := ih (fun x hx => hmem x (List.mem_cons_of_mem c hx))
    simp only [List.map_cons, List.sum_cons, List.length_cons]
    push_cast [-Nat.cast_list_sum]
    ring_nf
    ring_nf at ihl hf
    linarith

/-- The combinatorial core of the entropy cap: over at most 8 bins,
`Σ c·log2⌊t/c⌋ ≤ 3·t` where `t` is the total count. -/
theorem counts_log_sum_le (counts : List ℕ) (hlen : counts.length ≤ 8) :
    (counts.map (fun (c : ℕ) => c * natLog2F 64 (counts.sum / c))).sum ≤ 3 * counts.sum := by
  have hmem : ∀ c ∈ counts, c ≤ counts.sum := fun c hc =>
    List.single_le_sum (fun x _ => Nat.zero_le x) c hc
  have hlog2pos : (0 : ℝ) < Real.log 2 := Real.log_pos (by norm_num)
  have key : ∀ c ∈ counts,
      (fun (c : ℕ) => ((c * natLog2F 64 (counts.sum / c) : ℕ) : ℝ) * Real.log 2) c ≤
        (c : ℝ) * Real.log 8 + ((counts.sum : ℕ) : ℝ) / 8 - (c : ℝ) := by
    intro c hc
    by_cases h0 : c = 0
    · subst h0
      have hge : (0 : ℝ) ≤ ((counts.sum : ℕ) : ℝ) / 8 := by positivity
      simpa using hge
    · have hp := pointwise_log_bound c counts.sum (Nat.pos_of_ne_zero h0) (hmem c hc)
      push_cast
      push_cast at hp
      linarith
  have hsum := list_affine_sum
    (fun (c : ℕ) => ((c * natLog2F 64 (counts.sum / c) : ℕ) : ℝ) * Real.log 2)
    (Real.log 8) (((counts.sum : ℕ) : ℝ) / 8) counts key
  have hlen' : (counts.length : ℝ) * (((counts.sum : ℕ) : ℝ) / 8) ≤ ((counts.sum : ℕ) : ℝ) := by
    have h8 : (counts.length : ℝ) ≤ 8 := by exact_mod_cast hlen
    have ht0 : (0 : ℝ) ≤ ((counts.sum : ℕ) : ℝ) := Nat.cast_nonneg _
    nlinarith
  have hlog8 : Real.log 8 = 3 * Real.log 2 := by
    rw [show (8 : ℝ) = 2 ^ 3 by norm_num, Real.log_pow]
    push_cast
    ring
  have hms : (((counts.map (fun (c : ℕ) => c * natLog2F 64 (counts.sum / c))).sum : ℕ) : ℝ) =
      (counts.map (fun (c : ℕ) => ((c * natLog2F 64 (counts.sum / c) : ℕ) : ℝ))).sum := by
    rw [Nat.cast_list_sum, List.map_map]
    rfl
  have hrS : (((counts.map (fun (c : ℕ) => c * natLog2F 64 (counts.sum / c))).sum : ℕ) : ℝ) *
      Real.log 2 ≤ ((3 * counts.sum : ℕ) : ℝ) * Real.log 2 := by
    rw [hms, ← List.sum_map_mul_right]
    calc (counts.map (fun (c : ℕ) =>
          ((c * natLog2F 64 (counts.sum / c) : ℕ) : ℝ) * Real.log 2)).sum
        ≤ Real.log 8 * ((counts.sum : ℕ) : ℝ) +
            (counts.length : ℝ) * (((counts.sum : ℕ) : ℝ) / 8) - ((counts.sum : ℕ) : ℝ) :=
          hsum
      _ ≤ ((3 * counts.sum : ℕ) : ℝ) * Real.log 2 := by
          rw [hlog8]
          push_cast [-Nat.cast_list_sum]
          ring_nf
          ring_nf at hlen'
          linarith
  have hfin := le_of_mul_le_mul_right hrS hlog2pos
  exact_mod_cast hfin

/-- Bridging lemma: on a probability vector of shape `c/t`, the
embedded Shannon entropy equals `Σ c·log2⌊t/c⌋ / t`. -/
theorem shannon_entropy_counts (t : ℕ) (ht : 0 < t) :
    ∀ counts : List ℕ, (∀ c ∈ counts, c ≤ t) →
      _shannon_entropy (counts.map (fun (c : ℕ) => (c : ℚ) / ((t : ℕ) : ℚ))) =
        (((counts.map (fun (c : ℕ) => c * natLog2F 64 (t / c))).sum : ℕ) : ℚ) /
          ((t : ℕ) : ℚ) := by
  have htq : (0 : ℚ) < ((t : ℕ) : ℚ) := by exact_mod_cast ht
  intro counts
  induction counts with
  | nil => intro _; simp [_shannon_entropy]
  | cons c l ih =>
    intro hmem
    have hct := hmem c (List.mem_cons_self c l)
    have ihl := ih (fun x hx => hmem x (List.mem_cons_of_mem c hx))
    have hterm : (if 0 < (c : ℚ) / ((t : ℕ) : ℚ) then
          -(((c : ℚ) / ((t : ℕ) : ℚ)) * log2Q ((c : ℚ) / ((t : ℕ) : ℚ))) else 0) =
        ((c * natLog2F 64 (t / c) : ℕ) : ℚ) / ((t : ℕ) : ℚ) := by
      by_cases h0 : c = 0
      · subst h0; simp
      · have hcp : 0 < c := Nat.pos_of_ne_zero h0
        have hcq : (0 : ℚ) < (c : ℚ) := by exact_mod_cast hcp
        rw [if_pos (div_pos hcq htq)]
        by_cases hceq : c = t
        · subst hceq
          have e1 : natLog2F 64 1 = 0 := by decide
          rw [div_self (ne_of_gt hcq), log2Q, if_pos le_rfl, Nat.floor_one, e1,
            Nat.div_self hcp, e1]
          simp
        · have hlt : c < t := lt_of_le_of_ne hct hceq
          have hq1 : (c : ℚ) / ((t : ℕ) : ℚ) < 1 :=
            (div_lt_one htq).mpr (by exact_mod_cast hlt)
          rw [log2Q, if_neg (not_le.mpr hq1), inv_div, Nat.floor_div_eq_div]
          push_cast
          field_simp
    simp only [_shannon_entropy] at ihl
    simp only [List.map_cons, _shannon_entropy, List.sum_cons]
    rw [hterm, ihl]
    push_cast
    rw [div_add_div_same]

theorem buildCounts_length (disps : List (ℚ × ℚ)) : (buildCounts disps).length = 8 := by
  have h : ∀ (l : List (ℚ × ℚ)) (acc : List ℕ),
      (l.foldl (fun counts d =>
        counts.set (binIdx d.1 d.2) (counts.getD (binIdx d.1 d.2) 0 + 1)) acc).length =
      acc.length := by
    intro l
    induction l with
    | nil => intro acc; rfl
    | cons d l ih => intro acc; rw [List.foldl_cons, ih, List.length_set]
  unfold buildCounts
  rw [h]
  simp

/-- The trajectory entropy always lies in [0, 1]: the degenerate
branches return 0, and on the main branch the normalised entropy obeys
the 8-bin cap. -/
theorem trajectory_entropy_bounds (hip : List Point) :
    0 ≤ calculate_trajectory_entropy hip ∧ calculate_trajectory_entropy hip ≤ 1 := by
  unfold calculate_trajectory_entropy
  by_cases h1 : hip.length < 4
  · rw [if_pos h1]; norm_num
  · rw [if_neg h1]
    by_cases h2 : (hipDisplacements hip).length < 3
    · rw [if_pos h2]; norm_num
    · rw [if_neg h2]
      by_cases h3 : (buildCounts (hipDisplacements hip)).sum = 0
      · rw [if_pos h3]; norm_num
      · rw [if_neg h3]
        have e3 : natLog2F 64 8 = 3 := by decide
        rw [e3, if_pos (by norm_num : (0 : ℚ) < ((3 : ℕ) : ℚ))]
        have hpos : 0 < (buildCounts (hipDisplacements hip)).sum := Nat.pos_of_ne_zero h3
        have hmem : ∀ c ∈ buildCounts (hipDisplacements hip),
            c ≤ (buildCounts (hipDisplacements hip)).sum := fun c hcm =>
          List.single_le_sum (fun x _ => Nat.zero_le x) c hcm
        have heq := shannon_entropy_counts (buildCounts (hipDisplacements hip)).sum hpos
          (buildCounts (hipDisplacements hip)) hmem
        rw [heq]
        have hS := counts_log_sum_le (buildCounts (hipDisplacements hip))
          (le_of_eq (buildCounts_length _))
        have htq : (0 : ℚ) < (((buildCounts (hipDisplacements hip)).sum : ℕ) : ℚ) := by
          exact_mod_cast hpos
        constructor
        · positivity
        · rw [div_le_one (by norm_num : (0 : ℚ) < ((3 : ℕ) : ℚ)), div_le_iff₀ htq]
          calc ((((buildCounts (hipDisplacements hip)).map
                (fun (c : ℕ) => c * natLog2F 64
                  ((buildCounts (hipDisplacements hip)).sum / c))).sum : ℕ) : ℚ)
              ≤ ((3 * (buildCounts (hipDisplacements hip)).sum : ℕ) : ℚ) := by
                exact_mod_cast hS
            _ = ((3 : ℕ) : ℚ) * (((buildCounts (hipDisplacements hip)).sum : ℕ) : ℚ) := by
                push_cast; ring

theorem totalDist_nonneg (traj : List Point) : 0 ≤ totalDist traj := by
  apply List.sum_nonneg
  intro x hx
  obtain ⟨pq, _, rfl⟩ := List.mem_map.mp hx
  exact euclidean_distance_nonneg _ _

theorem path_efficiency_bounds (traj : List Point) :
    0 ≤ (calculate_path_efficiency traj).1 ∧ (calculate_path_efficiency traj).1 ≤ 1 := by
  by_cases h1 : traj.length < 2
  · simp only [calculate_path_efficiency, if_pos h1]; norm_num
  · by_cases h2 : totalDist traj < 1 / 1000000
    · simp only [calculate_path_efficiency, if_neg h1, if_pos h2]; norm_num
    · simp only [calculate_path_efficiency, if_neg h1, if_neg h2]
      constructor
      · exact le_min (div_nonneg (ratSqrt_nonneg _)
          (le_trans (by norm_num) (not_lt.mp h2))) zero_le_one
      · exact min_le_right _ _

theorem stability_expr_bounds (evs : List SettleEvent) :
    0 ≤ (if 0 < (calculate_stability_score evs 8).2.2 then
        ((calculate_stability_score evs 8).2.1 : ℚ) /
          ((calculate_stability_score evs 8).2.2 : ℚ)
      else 1) ∧
    (if 0 < (calculate_stability_score evs 8).2.2 then
        ((calculate_stability_score evs 8).2.1 : ℚ) /
          ((calculate_stability_score evs 8).2.2 : ℚ)
      else 1) ≤ 1 := by
  rw [stability_of_events]
  by_cases h : evs.isEmpty
  · rw [if_pos h]; norm_num
  · rw [if_neg h]
    have hlen : 0 < evs.length := by
      cases evs with
      | nil => simp at h
      | cons a l => simp
    have hq : (0 : ℚ) < (evs.length : ℚ) := by exact_mod_cast hlen
    constructor
    · positivity
    · rw [div_le_one hq]
      exact_mod_cast List.length_filter_le _ _

theorem stability_counts_nonneg (evs : List SettleEvent) :
    0 ≤ (calculate_stability_score evs 8).2.1 ∧
      0 ≤ (calculate_stability_score evs 8).2.2 := by
  unfold calculate_stability_score
  by_cases h : evs.isEmpty
  · rw [if_pos h]; exact ⟨le_refl 0, le_refl 0⟩
  · rw [if_neg h]; exact ⟨Int.natCast_nonneg _, Int.natCast_nonneg _⟩

theorem move_count_nonneg (phases : List MovementPhase) : 0 ≤ (analyze_rhythm phases).1 := by
  simp only [analyze_rhythm]
  split
  · exact Int.natCast_nonneg _
  · exact Int.natCast_nonneg _

theorem foldl_max_init_le (xs : List ℚ) : ∀ a : ℚ, a ≤ xs.foldl max a := by
  induction xs with
  | nil => intro a; exact le_refl a
  | cons b l ih => intro a; exact le_trans (le_max_left a b) (ih (max a b))

theorem maxList_nonneg (l : List ℚ) (hne : l ≠ []) (h : ∀ x ∈ l, 0 ≤ x) : 0 ≤ maxList l := by
  cases l with
  | nil => exact absurd rfl hne
  | cons x xs =>
    exact le_trans (h x (List.mem_cons_self x xs)) (foldl_max_init_le xs x)

/-- The tension score is in [0, 1] (and the sag count non-negative)
whenever the x-coordinates are non-negative and the computation did not
raise: the `max 0` clamps below, and a positive `max_expected_offset`
makes the subtracted term non-negative. -/
theorem tension_bounds (sh hp : List Point) (r : ℚ × ℤ)
    (hsh : ∀ p ∈ sh, 0 ≤ p.1) (hhp : ∀ p ∈ hp, 0 ≤ p.1)
    (hr : calculate_body_tension sh hp = some r) :
    (0 ≤ r.1 ∧ r.1 ≤ 1) ∧ 0 ≤ r.2 := by
  unfold calculate_body_tension at hr
  by_cases hg : sh.length ≠ hp.length ∨ sh.length < 10
  · rw [if_pos hg] at hr
    obtain rfl := Option.some.inj hr
    norm_num
  · rw [if_neg hg] at hr
    by_cases hz : tensionMaxX sh hp * (15 / 100) = 0
    · rw [if_pos hz] at hr; exact Option.noConfusion hr
    · rw [if_neg hz] at hr
      obtain rfl := Option.some.inj hr
      push_neg at hg
      have h10 : 10 ≤ sh.length := hg.2
      have hne : (sh.map Prod.fst ++ hp.map Prod.fst) ≠ [] := by
        intro habs
        have hsm : sh.map Prod.fst = [] := (List.append_eq_nil.mp habs).1
        have hsh0 : sh = [] := List.map_eq_nil_iff.mp hsm
        rw [hsh0] at h10
        simp at h10
      have hxall : ∀ x ∈ sh.map Prod.fst ++ hp.map Prod.fst, 0 ≤ x := by
        intro x hx
        rcases List.mem_append.mp hx with hx | hx
        · obtain ⟨p, hmem, rfl⟩ := List.mem_map.mp hx; exact hsh p hmem
        · obtain ⟨p, hmem, rfl⟩ := List.mem_map.mp hx; exact hhp p hmem
      have hmx : 0 ≤ tensionMaxX sh hp := by
        unfold tensionMaxX
        rw [if_neg (by simpa [List.isEmpty_iff] using hne)]
        exact maxList_nonneg _ hne hxall
      have hmxpos : 0 < tensionMaxX sh hp * (15 / 100) :=
        lt_of_le_of_ne (mul_nonneg hmx (by norm_num)) (Ne.symm hz)
      have havg : 0 ≤ meanQ (tensionAlignments sh hp) := by
        unfold meanQ
        apply div_nonneg
        · apply List.sum_nonneg
          intro x hx
          obtain ⟨p, _, rfl⟩ := List.mem_map.mp hx
          exact abs_nonneg _
        · exact Nat.cast_nonneg _
      have hdivnn : 0 ≤ meanQ (tensionAlignments sh hp) /
          (tensionMaxX sh hp * (15 / 100)) := div_nonneg havg (le_of_lt hmxpos)
      exact ⟨⟨le_max_left _ _, max_le (by norm_num) (by linarith)⟩, Int.natCast_nonneg _⟩

theorem lookup_x_nonneg : ∀ (kp : Keypoints), (∀ e ∈ kp, 0 ≤ e.2.1) →
    ∀ (name : String) (x y v : ℚ), kp.lookup name = some (x, y, v) → 0 ≤ x := by
  intro kp
  induction kp with
  | nil => intro _ name x y v h; simp [List.lookup] at h
  | cons a l ih =>
    intro hk name x y v h
    obtain ⟨k, b⟩ := a
    simp only [List.lookup] at h
    split at h
    · have hb : b = (x, y, v) := Option.some.inj h
      have hbn := hk (k, b) (List.mem_cons_self _ _)
      rw [hb] at hbn
      exact hbn
    · exact ih (fun e he => hk e (List.mem_cons_of_mem _ he)) name x y v h

theorem _extract_point_x_nonneg (kp : Keypoints) (hk : ∀ e ∈ kp, 0 ≤ e.2.1)
    (name : String) (θ : ℚ) (p : Point)
    (h : _extract_point kp name θ = some p) : 0 ≤ p.1 := by
  unfold _extract_point at h
  cases hlu : kp.lookup name with
  | none => rw [hlu] at h; exact Option.noConfusion h
  | some t =>
    rw [hlu] at h
    obtain ⟨x, y, v⟩ := t
    have h2 : (if v < θ then none else some (x, y) : Option Point) = some p := h
    by_cases hv : v < θ
    · rw [if_pos hv] at h2; exact Option.noConfusion h2
    · rw [if_neg hv] at h2
      obtain rfl := Option.some.inj h2
      exact lookup_x_nonneg kp hk name x y v hlu

theorem frameHip_x_nonneg (kp : Keypoints) (hk : ∀ e ∈ kp, 0 ≤ e.2.1)
    (p : Point) (h : frameHip kp = some p) : 0 ≤ p.1 := by
  unfold frameHip at h
  cases hm : _extract_point kp "mid_hip" (1 / 2) with
  | some mp =>
    rw [hm] at h
    obtain rfl := Option.some.inj h
    exact _extract_point_x_nonneg kp hk _ _ _ hm
  | none =>
    rw [hm] at h
    cases hl : _extract_point kp "left_hip" (1 / 2) with
    | none =>
      rw [hl] at h
      cases hr : _extract_point kp "right_hip" (1 / 2) with
      | none => rw [hr] at h; exact Option.noConfusion h
      | some rh => rw [hr] at h; exact Option.noConfusion h
    | some lh =>
      rw [hl] at h
      cases hr : _extract_point kp "right_hip" (1 / 2) with
      | none => rw [hr] at h; exact Option.noConfusion h
      | some rh =>
        rw [hr] at h
        obtain rfl := Option.some.inj h
        exact div_nonneg (add_nonneg (_extract_point_x_nonneg kp hk _ _ _ hl)
          (_extract_point_x_nonneg kp hk _ _ _ hr)) (by norm_num)

theorem frameShoulder_x_nonneg (kp : Keypoints) (hk : ∀ e ∈ kp, 0 ≤ e.2.1)
    (p : Point) (h : frameShoulder kp = some p) : 0 ≤ p.1 := by
  unfold frameShoulder at h
  cases hm : _extract_point kp "mid_shoulder" (1 / 2) with
  | some mp =>
    rw [hm] at h
    obtain rfl := Option.some.inj h
    exact _extract_point_x_nonneg kp hk _ _ _ hm
  | none =>
    rw [hm] at h
    cases hl : _extract_point kp "left_shoulder" (1 / 2) with
    | none =>
      rw [hl] at h
      cases hr : _extract_point kp "right_shoulder" (1 / 2) with
      | none => rw [hr] at h; exact Option.noConfusion h
      | some rs => rw [hr] at h; exact Option.noConfusion h
    | some ls =>
      rw [hl] at h
      cases hr : _extract_point kp "right_shoulder" (1 / 2) with
      | none => rw [hr] at h; exact Option.noConfusion h
      | some rs =>
        rw [hr] at h
        obtain rfl := Option.some.inj h
        exact div_nonneg (add_nonneg (_extract_point_x_nonneg kp hk _ _ _ hl)
          (_extract_point_x_nonneg kp hk _ _ _ hr)) (by norm_num)

theorem pairedShoulderHip_x_nonneg : ∀ (kps : List Keypoints),
    (∀ f ∈ kps, ∀ e ∈ f, 0 ≤ e.2.1) →
      (∀ p ∈ (pairedShoulderHip kps).1, 0 ≤ p.1) ∧
      (∀ p ∈ (pairedShoulderHip kps).2, 0 ≤ p.1) := by
  intro kps
  induction kps with
  | nil =>
    intro _
    constructor <;> intro p hp <;> simp [pairedShoulderHip] at hp
  | cons kp l ih =>
    intro hk
    have ihl := ih (fun f hf e he => hk f (List.mem_cons_of_mem _ hf) e he)
    have hkf : ∀ e ∈ kp, 0 ≤ e.2.1 := hk kp (List.mem_cons_self _ _)
    have hstep : pairedShoulderHip (kp :: l) =
        match frameHip kp, frameShoulder kp with
        | some hq, some sq =>
          (sq :: (pairedShoulderHip l).1, hq :: (pairedShoulderHip l).2)
        | _, _ => pairedShoulderHip l := rfl
    rw [hstep]
    cases hh : frameHip kp with
    | none =>
      cases hs : frameShoulder kp with
      | none => exact ihl
      | some sq => exact ihl
    | some hq =>
      cases hs : frameShoulder kp with
      | none => exact ihl
      | some sq =>
        constructor
        · intro p hp
          rcases List.mem_cons.mp hp with rfl | hp
          · exact frameShoulder_x_nonneg kp hkf p hs
          · exact ihl.1 p hp
        · intro p hp
          rcases List.mem_cons.mp hp with rfl | hp
          · exact frameHip_x_nonneg kp hkf p hh
          · exact ihl.2 p hp

theorem xCoordsOk_spec (kps : List Keypoints) (hx : xCoordsOk kps = true) :
    ∀ f ∈ kps, ∀ e ∈ f, 0 ≤ e.2.1 := by
  intro f hf e he
  unfold xCoordsOk at hx
  rw [List.all_eq_true] at hx
  have h1 := hx f hf
  rw [List.all_eq_true] at h1
  exact of_decide_eq_true (h1 e he)

theorem ratio_expr_bounds (l : List Bool) :
    0 ≤ (if l.length = 0 then (0 : ℚ)
        else ((l.filter id).length : ℚ) / (l.length : ℚ)) ∧
    (if l.length = 0 then (0 : ℚ)
        else ((l.filter id).length : ℚ) / (l.length : ℚ)) ≤ 1 := by
  by_cases h : l.length = 0
  · rw [if_pos h]; norm_num
  · rw [if_neg h]
    have hq : (0 : ℚ) < (l.length : ℚ) := by
      exact_mod_cast Nat.pos_of_ne_zero h
    constructor
    · positivity
    · rw [div_le_one hq]
      exact_mod_cast List.length_filter_le _ _

theorem joint_angle_bounds (kps : List Keypoints) :
    (0 ≤ (calculate_joint_angle_ratios kps).1 ∧ (calculate_joint_angle_ratios kps).1 ≤ 1) ∧
    (0 ≤ (calculate_joint_angle_ratios kps).2 ∧ (calculate_joint_angle_ratios kps).2 ≤ 1) :=
  ⟨ratio_expr_bounds _, ratio_expr_bounds _⟩

theorem clamp01_if_bounds (c : Prop) [Decidable c] (y : ℚ) :
    0 ≤ (if c then (0 : ℚ) else max 0 (min 1 y)) ∧
      (if c then (0 : ℚ) else max 0 (min 1 y)) ≤ 1 := by
  by_cases h : c
  · rw [if_pos h]; norm_num
  · rw [if_neg h]
    exact ⟨le_max_left _ _, max_le zero_le_one (min_le_left _ _)⟩

theorem com_smoothness_bounds (hip : List Point) (ts : List ℚ) (s : ℚ) :
    0 ≤ calculate_com_smoothness hip ts s ∧ calculate_com_smoothness hip ts s ≤ 1 := by
  unfold calculate_com_smoothness
  by_cases h1 : hip.length < 6 ∨ hip.length ≠ ts.length
  · rw [if_pos h1]; norm_num
  · rw [if_neg h1]
    exact clamp01_if_bounds _ _

theorem ite_bounds01 (c : Prop) [Decidable c] (x : ℚ) (hx : 0 ≤ x ∧ x ≤ 1) :
    0 ≤ (if c then x else 0) ∧ (if c then x else 0) ≤ 1 := by
  by_cases h : c
  · rw [if_pos h]; exact hx
  · rw [if_neg h]; norm_num

/-- C2 (amended): on every input whose keypoint x-coordinates are
non-negative and on which `calculate_all_metrics` returns a record,
every bounded field of that record lies in [0, 1] and every count field
is a non-negative integer (all fields are well-defined rationals by
construction of the embedding). -/
theorem c2_metrics_in_range (kps : List Keypoints) (ts : List ℚ) (m : ClimbMetrics)
    (hx : xCoordsOk kps = true)
    (hm : calculate_all_metrics kps ts = some m) : MetricsInRange m := by
  have hxs := xCoordsOk_spec kps hx
  have hpair := pairedShoulderHip_x_nonneg kps hxs
  unfold calculate_all_metrics at hm
  simp only [bind, Option.bind_eq_some, Option.pure_def, Option.some.injEq] at hm
  obtain ⟨vel, hvel, phs, hph, sevs, hsevs, tens, htens, hm⟩ := hm
  have htb := tension_bounds (pairedShoulderHip kps).1 (pairedShoulderHip kps).2 tens
    hpair.1 hpair.2 htens
  rw [← hm]
  unfold MetricsInRange
  refine ⟨(path_efficiency_bounds _).1, (path_efficiency_bounds _).2,
    (stability_expr_bounds sevs).1, (stability_expr_bounds sevs).2,
    htb.1.1, htb.1.2,
    (trajectory_entropy_bounds _).1, (trajectory_entropy_bounds _).2,
    (joint_angle_bounds kps).1.1, (joint_angle_bounds kps).1.2,
    (joint_angle_bounds kps).2.1, (joint_angle_bounds kps).2.2,
    (ite_bounds01 _ _ (com_smoothness_bounds _ _ _)).1,
    (ite_bounds01 _ _ (com_smoothness_bounds _ _ _)).2,
    move_count_nonneg phs,
    (stability_counts_nonneg sevs).1, (stability_counts_nonneg sevs).2,
    htb.2, Int.natCast_nonneg _⟩

/-- Witness for the amended C2 at a one-frame input with non-negative
coordinates: the aggregator returns a record and every field obeys the
range discipline. -/
theorem c2_metrics_in_range_witness :
    (xCoordsOk [[("mid_hip", ((2 : ℚ), 3, 1))]] = true ∧
     calculate_all_metrics [[("mid_hip", ((2 : ℚ), 3, 1))]] [0] =
       some ⟨1, 0, 0, 0, 0, 0, 0, 0, 0, 1, 1, 0, 0, 0, 0, 0, 0, 0, 0⟩) ∧
    MetricsInRange ⟨1, 0, 0, 0, 0, 0, 0, 0, 0, 1, 1, 0, 0, 0, 0, 0, 0, 0, 0⟩ :=
  ⟨⟨by with_unfolding_all decide, by with_unfolding_all decide⟩,
   c2_metrics_in_range [[("mid_hip", ((2 : ℚ), 3, 1))]] [0] _
     (by with_unfolding_all decide) (by with_unfolding_all decide)⟩

/-- C2 (counterexample to the claim as stated): an input whose
coordinates are negative (MediaPipe can emit out-of-frame landmarks)
produces a returned record whose body-tension score is 23/3 > 1 — the
`max(0, ·)` clamp bounds the score only from below, and a negative
maximum x-coordinate flips the sign of the normaliser. -/
theorem c2_tension_above_one_counterexample :
    (calculate_all_metrics
        ((List.range 10).map (fun i => [("mid_hip", ((-50 : ℚ), (i : ℚ), 1)),
          ("mid_shoulder", ((-100 : ℚ), (i : ℚ), 1))]))
        ((List.range 10).map (fun i => (i : ℚ)))).map
      (fun m => m.body_tension_score) = some (23 / 3) ∧
    ¬ ((23 : ℚ) / 3 ≤ 1) :=
  ⟨by with_unfolding_all decide, by norm_num⟩

end BetaView
